import Mathlib

set_option autoImplicit false
set_option maxRecDepth 4000
set_option maxHeartbeats 1000000

/-!
Verification development for graphspec (graphspec.py), a converter from a
line-oriented textual graph mini-language to a Graphviz digraph document.

The Python source is shallowly embedded below.  Mutable state (the `Graph`
object) is modelled by explicit state passing; Python exceptions are modelled
by an `Option String` error slot (the string records the exception and its
message); `collections.defaultdict` fields whose entries are only ever read
through `.get(key, default)` or auto-vivified to the default are modelled as
total functions with that default, since the default entries are
observationally indistinguishable from absent ones.  `networkx` library calls
are modelled by executable definitions of their documented behaviour
(reachability, all shortest paths, `is_forest` as the per-weak-component edge
count check that networkx actually performs, topological order).
-/

/-- The five directive keywords recognized by the grammar
(`oneOf('subgraph attr allPaths ancestors descendants')`). -/
inductive Directive where
  | subgraph
  | attr
  | allPaths
  | ancestors
  | descendants
deriving DecidableEq

/-- The textual name of a directive, as it appears in statement dicts. -/
def Directive.name : Directive → String
  | .subgraph => "subgraph"
  | .attr => "attr"
  | .allPaths => "allPaths"
  | .ancestors => "ancestors"
  | .descendants => "descendants"

/-- A statement record produced by `search_for_statements`: either edge-shaped
(it carries `start`/`end`, plus optionally a directive, label, comment and
data) or node-shaped (a directive applied to a single node; the grammar always
produces a `data` entry for a directive, possibly the empty string). -/
inductive Statement where
  | edge (start end_ : String) (directive : Option Directive)
      (label comment data : Option String)
  | node (node : String) (directive : Directive) (data : String)
      (label comment : Option String)
deriving DecidableEq

/-- Metadata attached to an edge of the `networkx.DiGraph` `self.g`:
the keys `label`, `comment` and `is_subgraph_relation` are the only ones the
program ever stores. -/
structure EdgeData where
  label : Option String := none
  comment : Option String := none
  is_subgraph_relation : Bool := false
deriving DecidableEq

/-- Metadata attached to a node of `self.g`: `_handle_subgraph` stores
`subgraph=True` and optionally a `label`. -/
structure NodeData where
  subgraph : Bool := false
  label : Option String := none
deriving DecidableEq

/-- The `Graph` aggregate.  `gNodes`/`gEdges` model the `networkx.DiGraph`
`self.g` (node dict and edge dict, in insertion order, each key at most once);
`node_attrs` and `edge_attrs` model the defaultdicts as total functions
(defaults `""` and `[]`). -/
structure Graph where
  gNodes : List (String × NodeData) := []
  gEdges : List (String × String × EdgeData) := []
  include_everything : Bool := false
  graph_attrs : List String := []
  node_attrs : String → String := fun _ => ""
  edge_attrs : String → String → List String := fun _ _ => []
  path_styles : List String := []
  ascendant_styles : List String := []
  descendant_styles : List String := []

/-- Pointwise update of a one-argument map (a dict assignment `m[k] = v`). -/
def upd (f : String → String) (k v : String) : String → String :=
  fun x => if x = k then v else f x

/-- Pointwise update of a two-argument map (`m[a][b] = v`). -/
def upd2 (f : String → String → List String) (a b : String) (v : List String) :
    String → String → List String :=
  fun x y => if x = a ∧ y = b then v else f x y

/-- Python truthiness filter for optional strings: an absent or empty string
is falsy (`if statement.get(key)` keeps only non-empty values). -/
def truthy : Option String → Option String
  | some s => if s = "" then none else some s
  | none => none

/-- First-of for optional values: `dict.update` keeps the old value only when
the new kwargs omit the key. -/
def orO (a b : Option String) : Option String :=
  match a with
  | some v => some v
  | none => b

/-- One lowercase hex digit. -/
def hexDigit (n : Nat) : Char :=
  if n < 10 then Char.ofNat (48 + n) else Char.ofNat (97 + (n - 10))

/-- Four-digit lowercase hex, as in a JSON `\uXXXX` escape. -/
def hex4 (n : Nat) : String :=
  String.mk [hexDigit (n / 4096 % 16), hexDigit (n / 256 % 16),
             hexDigit (n / 16 % 16), hexDigit (n % 16)]

/-- Escape one character the way `json.dumps` (with its default
`ensure_ascii=True`) escapes characters inside a string literal. -/
def jsonEscapeChar (c : Char) : String :=
  if c = '"' then "\\\""
  else if c = '\\' then "\\\\"
  else if c = '\n' then "\\n"
  else if c = '\t' then "\\t"
  else if c = '\r' then "\\r"
  else if c.toNat = 8 then "\\b"
  else if c.toNat = 12 then "\\f"
  else if c.toNat < 32 ∨ c.toNat ≥ 127 then
    if c.toNat < 65536 then "\\u" ++ hex4 c.toNat
    else
      let v := c.toNat - 65536
      "\\u" ++ hex4 (55296 + v / 1024) ++ "\\u" ++ hex4 (56320 + v % 1024)
  else String.singleton c

/-- The embedding of `json.dumps` applied to a string. -/
def jsonDumps (s : String) : String :=
  "\"" ++ String.join (s.toList.map jsonEscapeChar) ++ "\""

/-- The node-id keys of `self.g.node`. -/
def nodeKeys (g : Graph) : List String := g.gNodes.map Prod.fst

/-- `networkx.DiGraph.add_edge` first ensures both endpoints exist as nodes
(with empty attribute dicts); an existing node's attributes are untouched. -/
def ensureNode (g : Graph) (n : String) : Graph :=
  if n ∈ nodeKeys g then g else { g with gNodes := g.gNodes ++ [(n, {})] }

/-- Merging kwargs into an edge's existing attribute dict
(`datadict.update(attr_dict)`): a key absent from the kwargs keeps its old
value.  `is_subgraph_relation` is only ever passed as `True`. -/
def mergeEdgeData (d : EdgeData) (kl kc : Option String) (ks : Bool) : EdgeData :=
  { label := orO kl d.label,
    comment := orO kc d.comment,
    is_subgraph_relation := ks || d.is_subgraph_relation }

/-- Update the edge dict: an existing `(a, b)` entry is updated in place,
otherwise the new edge is appended. -/
def updEdges : List (String × String × EdgeData) → String → String →
    Option String → Option String → Bool → List (String × String × EdgeData)
  | [], a, b, kl, kc, ks => [(a, b, mergeEdgeData {} kl kc ks)]
  | e :: es, a, b, kl, kc, ks =>
    if e.1 = a ∧ e.2.1 = b then (a, b, mergeEdgeData e.2.2 kl kc ks) :: es
    else e :: updEdges es a b kl kc ks

/-- Lookup in an edge list. -/
def findEdgeL (es : List (String × String × EdgeData)) (a b : String) :
    Option EdgeData :=
  (es.find? (fun e => decide (e.1 = a ∧ e.2.1 = b))).map (fun e => e.2.2)

/-- `self.g.add_edge(a, b, **kwargs)`. -/
def addEdge (g : Graph) (a b : String) (kl kc : Option String) (ks : Bool) :
    Graph :=
  let g1 := ensureNode g a
  let g2 := ensureNode g1 b
  { g2 with gEdges := updEdges g2.gEdges a b kl kc ks }

/-- Edge-metadata lookup on a graph. -/
def findEdge (g : Graph) (a b : String) : Option EdgeData :=
  findEdgeL g.gEdges a b

/-- Split a character list at every occurrence of `sep` (the embedding of
Python's `str.split` with a one-character separator). -/
def splitOnCharL (sep : Char) : List Char → List (List Char)
  | [] => [[]]
  | c :: cs =>
    if c = sep then [] :: splitOnCharL sep cs
    else
      match splitOnCharL sep cs with
      | t :: ts => (c :: t) :: ts
      | [] => [[c]]

/-- The whitespace characters stripped by Python's `str.strip()`. -/
def isPyWs (c : Char) : Bool :=
  c = ' ' || c = '\t' || c = '\n' || c = '\r' || c.toNat = 11 || c.toNat = 12

/-- The embedding of Python's `str.strip()`. -/
def pyStrip (s : String) : String :=
  String.mk (((s.toList.dropWhile isPyWs).reverse.dropWhile isPyWs).reverse)

/-- The embedding of `data.split(";")`. -/
def splitSemi (s : String) : List String :=
  (splitOnCharL ';' s.toList).map String.mk

/-- Drop trailing space characters (only `' '`, as in the regex `' *'`). -/
def dropTrailingSpaces (s : String) : String :=
  String.mk ((s.toList.reverse.dropWhile (fun c => decide (c = ' '))).reverse)

/-- Drop leading space characters. -/
def dropLeadingSpaces (s : String) : String :=
  String.mk (s.toList.dropWhile (fun c => decide (c = ' ')))

/-- The embedding of `re.split(' *, *', data)`: split at every comma and strip
the spaces adjacent to each comma (leading spaces of the first piece and
trailing spaces of the last piece survive). -/
def splitCommaWs (data : String) : List String :=
  let pieces := (splitOnCharL ',' data.toList).map String.mk
  let n := pieces.length
  pieces.enum.map (fun ip =>
    let p1 := if ip.1 > 0 then dropLeadingSpaces ip.2 else ip.2
    if ip.1 + 1 < n then dropTrailingSpaces p1 else p1)

/-- Mark a node as a subgraph root (`self.g.node[subgraph_id].update(**kwargs)`
with `subgraph=True` and the label only when truthy). -/
def setNodeSubgraph (g : Graph) (nd : String) (lbl : Option String) : Graph :=
  { g with gNodes := g.gNodes.map (fun p =>
      if p.1 = nd then (p.1, { subgraph := true, label := orO lbl p.2.label })
      else p) }

/-- The fold step of `_handle_subgraph`'s child loop: empty children are
skipped, each other child becomes a subgraph-relation edge. -/
def subgraphChildStep (nd : String) (h : Graph) (c : String) : Graph :=
  if c ≠ "" then addEdge h nd c none none true else h

/-- The embedding of `Graph.include_statement` (with `_handle_edge_statement`,
`_handle_node_statement` and `_handle_subgraph` inlined).  The second
component records a raised exception: `_handle_edge_statement` raises
`ValueError` for a non-`attr` directive on an edge, and `_handle_subgraph`
hits a `KeyError` on `self.g.node[subgraph_id]` when no nonempty child added
the node and it is not already present. -/
def includeStatement (g : Graph) (s : Statement) : Graph × Option String :=
  match s with
  | .edge a b dir lbl cmt dat =>
    if (dir.getD .attr) ≠ .attr then
      (g, some ("ValueError: Can only handle edges for attr statements, not ["
                 ++ (dir.getD .attr).name ++ "]"))
    else
      let g1 := match dat with
        | some d =>
          if d ≠ "" then
            let ea := upd2 g.edge_attrs a b (g.edge_attrs a b ++ splitSemi (pyStrip d))
            { g with edge_attrs := ea }
          else g
        | none => g
      (addEdge g1 a b (truthy lbl) (truthy cmt) false, none)
  | .node nd dir dat lbl cmt =>
    match dir with
    | .subgraph =>
      let g1 := (splitCommaWs dat).foldl (subgraphChildStep nd) g
      if nd ∈ nodeKeys g1 then (setNodeSubgraph g1 nd (truthy lbl), none)
      else (g1, some ("KeyError: " ++ nd))
    | .attr =>
      if nd = "graph" then
        ({ g with graph_attrs := g.graph_attrs ++ [dat] }, none)
      else
        let v := match truthy cmt with
          | some c => "tooltip=" ++ jsonDumps c ++ dat
          | none => dat
        ({ g with node_attrs := upd g.node_attrs nd v }, none)
    | _ => (g, none)

/-! ## The grammar scanner

A hand-written model of the pyparsing grammar

```
header = Suppress('..') + oneOf('subgraph attr allPaths ancestors descendants') + Suppress(':')
Identifier = Word(alphanums + '._-')
edge = Identifier('start') + Suppress('-->') + Identifier('end')
entity = edge | Identifier('node')
labelledEntity = entity + Suppress(',') + Regex('[^:]+')('label')
entityDetails = labelledEntity | entity
comment = Regex('.*')('comment')
data = (SkipTo('::')('data') + Suppress('::') + comment) | Regex('.*')('data')
directive = header + entityDetails + Suppress(':') + data
edgeSpec = (edge + Suppress('::') + comment) | edge
```

with `parser = directive | edgeSpec` and `searchString` scanning a line left
to right.  Every pyparsing element skips leading whitespace (space, tab,
newline) before matching; `Regex('.*')` and `Regex('[^:]+')` match greedily up
to the end of the line / the next colon; `MatchFirst` tries alternatives in
order. -/

/-- pyparsing identifier characters: `alphanums + '._-'`. -/
def isWordChar (c : Char) : Bool :=
  c.isAlpha || c.isDigit || c = '.' || c = '_' || c = '-'

/-- pyparsing default whitespace characters. -/
def isWsChar (c : Char) : Bool := c = ' ' || c = '\t' || c = '\n'

/-- Skip leading whitespace (the implicit pre-skip of every element). -/
def skipWs (cs : List Char) : List Char := cs.dropWhile isWsChar

/-- Match a literal (after the whitespace pre-skip). -/
def pLit (lit : String) (cs : List Char) : Option (List Char) :=
  let cs := skipWs cs
  if lit.toList.isPrefixOf cs then some (cs.drop lit.length) else none

/-- Match `Word(alphanums + '._-')`: a maximal nonempty run of word chars. -/
def pWord (cs : List Char) : Option (String × List Char) :=
  let cs := skipWs cs
  let run := cs.takeWhile isWordChar
  if run.isEmpty then none else some (String.mk run, cs.drop run.length)

/-- Match the directive keyword (`oneOf`; no keyword is a prefix of
another, so trying them in order is exact). -/
def pDirectiveKw (cs : List Char) : Option (Directive × List Char) :=
  match pLit "subgraph" cs with
  | some r => some (.subgraph, r)
  | none =>
  match pLit "attr" cs with
  | some r => some (.attr, r)
  | none =>
  match pLit "allPaths" cs with
  | some r => some (.allPaths, r)
  | none =>
  match pLit "ancestors" cs with
  | some r => some (.ancestors, r)
  | none =>
  match pLit "descendants" cs with
  | some r => some (.descendants, r)
  | none => none

/-- Match `edge = Identifier + Suppress('-->') + Identifier`. -/
def pEdge (cs : List Char) : Option ((String × String) × List Char) :=
  match pWord cs with
  | none => none
  | some (s, cs1) =>
    match pLit "-->" cs1 with
    | none => none
    | some cs2 =>
      match pWord cs2 with
      | none => none
      | some (e, cs3) => some ((s, e), cs3)

/-- An entity is either an edge or a single node identifier. -/
inductive Entity where
  | anEdge (start end_ : String)
  | aNode (node : String)
deriving DecidableEq

/-- Match `entity = edge | Identifier('node')`. -/
def pEntity (cs : List Char) : Option (Entity × List Char) :=
  match pEdge cs with
  | some ((s, e), r) => some (.anEdge s e, r)
  | none =>
    match pWord cs with
    | some (n, r) => some (.aNode n, r)
    | none => none

/-- Match `Regex('[^:]+')`: pre-skip, then a maximal nonempty run of
non-colon characters. -/
def pLabelText (cs : List Char) : Option (String × List Char) :=
  let cs := skipWs cs
  let run := cs.takeWhile (fun c => decide (c ≠ ':'))
  if run.isEmpty then none else some (String.mk run, cs.drop run.length)

/-- Match `entityDetails = (entity + ',' + label) | entity`. -/
def pEntityDetails (cs : List Char) :
    Option ((Entity × Option String) × List Char) :=
  let labelled :=
    match pEntity cs with
    | none => none
    | some (ent, cs1) =>
      match pLit "," cs1 with
      | none => none
      | some cs2 =>
        match pLabelText cs2 with
        | none => none
        | some (lbl, cs3) => some ((ent, some lbl), cs3)
  match labelled with
  | some r => some r
  | none =>
    match pEntity cs with
    | some (ent, r) => some ((ent, none), r)
    | none => none

/-- Index of the first occurrence of `pat` in `cs`, if any. -/
def findSubIdx (pat : List Char) : List Char → Option Nat
  | [] => if pat.isEmpty then some 0 else none
  | c :: cs =>
    if pat.isPrefixOf (c :: cs) then some 0
    else (findSubIdx pat cs).map Nat.succ

/-- Match `Regex('.*')`: pre-skip, then everything up to the end of the line
(a `.` never matches a newline). -/
def pRestOfLine (cs : List Char) : String × List Char :=
  let cs := skipWs cs
  let run := cs.takeWhile (fun c => decide (c ≠ '\n'))
  (String.mk run, cs.drop run.length)

/-- Match `data`: either everything up to a `::` (whitespace pre-skipped,
trailing spaces kept) followed by a comment, or the rest of the line. -/
def pData (cs : List Char) : (String × Option String) × List Char :=
  let cs1 := skipWs cs
  match findSubIdx [':', ':'] cs1 with
  | some k =>
    let dat := String.mk (cs1.take k)
    let afterSep := cs1.drop (k + 2)
    let (cmt, rest) := pRestOfLine afterSep
    ((dat, some cmt), rest)
  | none =>
    let (dat, rest) := pRestOfLine cs
    ((dat, none), rest)

/-- Match the full `directive` alternative, producing a statement record. -/
def pDirective (cs : List Char) : Option (Statement × List Char) :=
  match pLit ".." cs with
  | none => none
  | some cs1 =>
    match pDirectiveKw cs1 with
    | none => none
    | some (d, cs2) =>
      match pLit ":" cs2 with
      | none => none
      | some cs3 =>
        match pEntityDetails cs3 with
        | none => none
        | some ((ent, lbl), cs4) =>
          match pLit ":" cs4 with
          | none => none
          | some cs5 =>
            let ((dat, cmt), rest) := pData cs5
            match ent with
            | .anEdge s e => some (.edge s e (some d) lbl cmt (some dat), rest)
            | .aNode n => some (.node n d dat lbl cmt, rest)

/-- Match `edgeSpec = (edge + '::' + comment) | edge`. -/
def pEdgeSpec (cs : List Char) : Option (Statement × List Char) :=
  let withComment :=
    match pEdge cs with
    | none => none
    | some ((s, e), cs1) =>
      match pLit "::" cs1 with
      | none => none
      | some cs2 =>
        let (cmt, rest) := pRestOfLine cs2
        some (Statement.edge s e none none (some cmt) none, rest)
  match withComment with
  | some r => some r
  | none =>
    match pEdge cs with
    | some ((s, e), rest) => some (Statement.edge s e none none none none, rest)
    | none => none

/-- The top-level alternation `parser = directive | edgeSpec`. -/
def pStatement (cs : List Char) : Option (Statement × List Char) :=
  match pDirective cs with
  | some r => some r
  | none => pEdgeSpec cs

/-- The scan loop of `searchString`: try the parser at each position, advance
one character past the whitespace pre-skip on failure, continue after the
match on success. -/
def scanAux : Nat → List Char → List Statement
  | 0, _ => []
  | fuel + 1, cs =>
    let pre := skipWs cs
    match pre with
    | [] => []
    | _ :: tl =>
      match pStatement pre with
      | some (st, rest) =>
        st :: scanAux fuel (if rest.length < pre.length then rest else tl)
      | none => scanAux fuel tl

/-- The embedding of `search_for_statements(line)`. -/
def search_for_statements (line : String) : List Statement :=
  scanAux (line.length + 1) line.toList

/-! ## Graph algorithms

Executable models of the networkx calls used by `render_dot` and
`get_graph_data`: reachability (`networkx.ancestors` / `networkx.descendants`
exclude the query node itself), enumeration of all shortest paths, the
`tree.is_forest` check (each weakly connected component of the directed graph
must have exactly `nodes - 1` edges), and a topological order of the subgraph
relation. -/

/-- Successors of `a` in the adjacency dict `self.g.succ[a]` (a dict, hence
each target at most once). -/
def succsOf (g : Graph) (a : String) : List String :=
  ((g.gEdges.filter (fun e => decide (e.1 = a))).map (fun e => e.2.1)).dedup

/-- Predecessors of `a` (`self.g.pred[a]`). -/
def predsOf (g : Graph) (a : String) : List String :=
  ((g.gEdges.filter (fun e => decide (e.2.1 = a))).map (fun e => e.1)).dedup

/-- One breadth step: grow a node set by all successors of its members. -/
def growSet (adj : String → List String) (vs : List String) : List String :=
  (vs ++ vs.foldr (fun v acc => adj v ++ acc) []).dedup

/-- Iterate the breadth step. -/
def growSetN (adj : String → List String) : Nat → List String → List String
  | 0, vs => vs
  | n + 1, vs => growSetN adj n (growSet adj vs)

/-- Fuel that certainly saturates any reachability iteration on `g`. -/
def reachFuel (g : Graph) : Nat := g.gNodes.length + 2 * g.gEdges.length + 2

/-- Reachability from `a` (including `a` itself) under an adjacency map. -/
def reachable (g : Graph) (adj : String → List String) (a m : String) : Bool :=
  m ∈ growSetN adj (reachFuel g) [a]

/-- `networkx.descendants(self.g, n)`: all nodes reachable from `n`,
excluding `n` itself. -/
def descendantsOf (g : Graph) (n : String) : List String :=
  (nodeKeys g).dedup.filter (fun m => decide (m ≠ n) && reachable g (succsOf g) n m)

/-- `networkx.ancestors(self.g, n)`: all nodes with a path to `n`, excluding
`n` itself (reachability along reversed edges). -/
def ancestorsOf (g : Graph) (n : String) : List String :=
  (nodeKeys g).dedup.filter (fun m => decide (m ≠ n) && reachable g (predsOf g) n m)

/-- All simple paths from `a` to `b` that avoid `visited`: the recursive
enumeration behind `networkx.all_shortest_paths` (which enumerates exactly
the minimum-length paths; a minimum-length path never repeats a node, so
enumerating simple paths first and filtering to minimal length below yields
the same set of paths). -/
def simplePathsAux (g : Graph) (b : String) :
    Nat → String → List String → List (List String)
  | 0, _, _ => []
  | fuel + 1, a, visited =>
    if a = b then [[a]]
    else
      ((succsOf g a).filter (fun x => decide (x ∉ a :: visited))).flatMap
        (fun x => (simplePathsAux g b fuel x (a :: visited)).map (fun p => a :: p))

/-- All simple paths from `a` to `b`. -/
def allSimplePaths (g : Graph) (a b : String) : List (List String) :=
  simplePathsAux g b (reachFuel g) a []

/-- Minimum of a list of naturals (`0` for the empty list). -/
def listMin : List Nat → Nat
  | [] => 0
  | x :: xs => xs.foldl Nat.min x

/-- `networkx.all_shortest_paths(self.g, a, b)`: every path of minimum edge
count from `a` to `b` (empty when `b` is unreachable, in which case networkx
raises `NetworkXNoPath`). -/
def allShortestPaths (g : Graph) (a b : String) : List (List String) :=
  let ps := allSimplePaths g a b
  ps.filter (fun p => decide (p.length = listMin (ps.map (fun q => q.length))))

/-- The subgraph-relation edge pairs collected by `render_dot` into the
auxiliary `subgraphs = networkx.DiGraph()` (a digraph, hence deduplicated). -/
def subRelEdges (g : Graph) : List (String × String) :=
  ((g.gEdges.filter (fun e => e.2.2.is_subgraph_relation)).map
    (fun e => (e.1, e.2.1))).dedup

/-- The nodes of the auxiliary subgraph digraph, in `add_edge` insertion
order. -/
def subRelNodes (edges : List (String × String)) : List String :=
  (edges.flatMap (fun e => [e.1, e.2])).dedup

/-- Undirected neighbours of `n` in an edge-pair list. -/
def undirNbrs (edges : List (String × String)) (n : String) : List String :=
  ((edges.filter (fun e => decide (e.1 = n))).map Prod.snd ++
   (edges.filter (fun e => decide (e.2 = n))).map Prod.fst).dedup

/-- Saturated undirected reachability set of `n` (its weakly connected
component). -/
def weakComponent (edges : List (String × String)) (n : String) : List String :=
  growSetN (undirNbrs edges) (2 * edges.length + 2) [n]

/-- The embedding of `networkx.algorithms.tree.is_forest` on a directed
graph: every weakly connected component must contain exactly one edge fewer
than it has nodes (this checks only undirected acyclicity; it does not check
in-degrees). -/
def nxIsForest (edges : List (String × String)) : Bool :=
  (subRelNodes edges).all (fun n =>
    let comp := weakComponent edges n
    decide ((edges.filter (fun e => decide (e.1 ∈ comp))).length + 1 = comp.length))

/-- One selection step of a Kahn-style topological sort: the first remaining
node with no incoming edge from a remaining node. -/
def kahnPick (edges : List (String × String)) (rem : List String) :
    Option String :=
  rem.find? (fun n => !(edges.any (fun e => decide (e.2 = n) && decide (e.1 ∈ rem))))

/-- Kahn's-algorithm topological sort of the subgraph relation
(`dag.topological_sort(subgraphs)`); `none` on a cycle, which cannot occur
once the forest check has passed. -/
def kahnSort (edges : List (String × String)) :
    Nat → List String → Option (List String)
  | 0, rem => if rem.isEmpty then some [] else none
  | fuel + 1, rem =>
    match rem with
    | [] => some []
    | _ =>
      match kahnPick edges rem with
      | none => none
      | some n => (kahnSort edges fuel (rem.erase n)).map (fun l => n :: l)

/-! ## The style resolver -/

/-- The fixed preset table `NODE_STYLES`. -/
def NODE_STYLES : List (String × String) :=
  [("highlight", "style=\"filled\"; fillcolor=\"pink\""),
   ("pink", "style=\"filled\"; fillcolor=\"pink\""),
   ("green", "style=\"filled\"; fillcolor=\"green\"")]

/-- `NODE_STYLES.get(attrs, attrs)`: resolve a style text through the preset
table, passing unknown text through verbatim. -/
def resolveStyle (attrs : String) : String :=
  match NODE_STYLES.find? (fun p => p.1 == attrs) with
  | some p => p.2
  | none => attrs

/-- The suffix loop shared by both spec regexes: match `' *: *(.*)'` against
`run.drop i ++ rest` for the greatest `i ≤ run.length` (regex backtracking
tries the longest `[^ ]+` capture first), returning the captured group and
the text after the colon with its leading spaces eaten by the greedy `' *'`. -/
def splitAtColon (run rest : List Char) : Nat → Option (String × String)
  | 0 => none
  | i + 1 =>
    let after := (run.drop (i + 1) ++ rest).dropWhile (fun c => decide (c = ' '))
    match after with
    | ':' :: tl =>
      some (String.mk (run.take (i + 1)),
            String.mk (tl.dropWhile (fun c => decide (c = ' '))))
    | _ => splitAtColon run rest i

/-- The embedding of `re.match('([^ ]+) *: *(.*)', spec).groups()` (used for
ancestor and descendant specs); `none` models the `AttributeError` raised on
a non-matching spec. -/
def parseNodeSpec (spec : String) : Option (String × String) :=
  let cs := spec.toList
  let run := cs.takeWhile (fun c => decide (c ≠ ' '))
  if run.isEmpty then none
  else splitAtColon run (cs.drop run.length) run.length

/-- The embedding of `re.match('([^ ]+) to ([^ ]+) *: *(.*)', spec).groups()`
(used for path specs).  The first `[^ ]+` is forced to be the whole leading
nonspace run (a shorter capture would put a nonspace character where the
literal `' to '` expects a space). -/
def parsePathSpec (spec : String) : Option (String × String × String) :=
  let cs := spec.toList
  let run1 := cs.takeWhile (fun c => decide (c ≠ ' '))
  if run1.isEmpty then none
  else
    match cs.drop run1.length with
    | ' ' :: 't' :: 'o' :: ' ' :: rest2 =>
      let run2 := rest2.takeWhile (fun c => decide (c ≠ ' '))
      if run2.isEmpty then none
      else
        match splitAtColon run2 (rest2.drop run2.length) run2.length with
        | some (b, style) => some (String.mk run1, b, style)
        | none => none
    | _ => none

/-- Prepend `pre` to one node's attribute text:
`node_attrs[n] = attrs + ';' + node_attrs.get(n, '')` with `pre = attrs + ';'`. -/
def prependStep (pre : String) (na : String → String) (n : String) :
    String → String :=
  upd na n (pre ++ na n)

/-- The ancestor-spec loop body of `render_dot`. -/
def applyAncestorSpec (g : Graph) (spec : String) : Except String Graph :=
  match parseNodeSpec spec with
  | none => .error "AttributeError: NoneType has no attribute groups"
  | some (nodeId, attrs0) =>
    let attrs := resolveStyle attrs0
    if nodeId ∈ nodeKeys g then
      let na := (ancestorsOf g nodeId).foldl (prependStep (attrs ++ ";")) g.node_attrs
      .ok { g with node_attrs := na }
    else .error "NetworkXError: node not in graph"

/-- The descendant-spec loop body of `render_dot`. -/
def applyDescendantSpec (g : Graph) (spec : String) : Except String Graph :=
  match parseNodeSpec spec with
  | none => .error "AttributeError: NoneType has no attribute groups"
  | some (nodeId, attrs0) =>
    let attrs := resolveStyle attrs0
    if nodeId ∈ nodeKeys g then
      let na := (descendantsOf g nodeId).foldl (prependStep (attrs ++ ";")) g.node_attrs
      .ok { g with node_attrs := na }
    else .error "NetworkXError: node not in graph"

/-- The path-spec loop body of `render_dot`: prepend the resolved style to
every node of every shortest path between the endpoints. -/
def applyPathSpec (g : Graph) (spec : String) : Except String Graph :=
  match parsePathSpec spec with
  | none => .error "AttributeError: NoneType has no attribute groups"
  | some (a, b, attrs0) =>
    let attrs := resolveStyle attrs0
    if a ∈ nodeKeys g then
      match allShortestPaths g a b with
      | [] => .error "NetworkXNoPath: no path between endpoints"
      | paths =>
        let na := paths.foldl (fun na p => p.foldl (prependStep (attrs ++ ";")) na) g.node_attrs
        .ok { g with node_attrs := na }
    else .error "KeyError: source not in graph"

/-- Thread a fallible step through a list, aborting at the first error. -/
def foldExcept (f : Graph → String → Except String Graph) :
    Graph → List String → Except String Graph
  | g, [] => .ok g
  | g, s :: rest =>
    match f g s with
    | .error e => .error e
    | .ok g1 => foldExcept f g1 rest

/-- The three style-spec loops of `render_dot`, in source order (ancestor
specs, then descendant specs, then path specs), each draining its own list
and mutating only `node_attrs`. -/
def stylePass (g : Graph) : Except String Graph :=
  match foldExcept applyAncestorSpec g g.ascendant_styles with
  | .error e => .error e
  | .ok g1 =>
    match foldExcept applyDescendantSpec g1 g1.descendant_styles with
    | .error e => .error e
    | .ok g2 => foldExcept applyPathSpec g2 g2.path_styles

/-! ## The document renderer -/

/-- Node-attribute lookup on `self.g.node[n]` (present nodes only are ever
queried; a missing node yields the empty dict). -/
def nodeDataOf (g : Graph) (n : String) : NodeData :=
  ((g.gNodes.find? (fun p => decide (p.1 = n))).map Prod.snd).getD {}

/-- `self.g.out_degree(node_id)`. -/
def outDegree (g : Graph) (n : String) : Nat := (succsOf g n).length

/-- `Graph.should_include_node`: include when `include_everything` is set, or
the node has an outgoing edge, or an incoming edge that is not a subgraph
relation. -/
def shouldInclude (g : Graph) (n : String) : Bool :=
  g.include_everything || decide (outDegree g n ≠ 0) ||
    g.gEdges.any (fun e => decide (e.2.1 = n) && !e.2.2.is_subgraph_relation)

/-- `Graph.render_node`. -/
def renderNode (g : Graph) (n : String) : String :=
  "\"" ++ n ++ "\" [id=\"" ++ n ++ "\"; " ++ g.node_attrs n ++ "];"

/-- Replace dots in a cluster id (`root.replace(".", "_")`). -/
def dotToUnderscore (s : String) : String :=
  String.mk (s.toList.map (fun c => if c = '.' then '_' else c))

/-- Add to the `already_visited` set. -/
def visitAdd (vs : List String) (n : String) : List String :=
  if n ∈ vs then vs else vs ++ [n]

/-- `Graph.render_subgraph`: emit a cluster for `root`, recursing into
children marked as subgraphs and rendering plain children as nodes, threading
the shared `already_visited` set.  The child iteration is over all successors
of `root` in the main graph.  The fuel models Python's recursion limit
(exhaustion is a `RecursionError`, unreachable below the forest check for
the graphs considered here). -/
def renderSub (g : Graph) :
    Nat → String → List String → Except String (String × List String)
  | 0, _, _ => .error "RecursionError: maximum recursion depth exceeded"
  | fuel + 1, root, visited =>
    let hdr := ["subgraph cluster_" ++ dotToUnderscore root ++ " \x7b",
                "id=\"" ++ root ++ "\";"]
    let sgAttrs := g.node_attrs root
    let part1 := hdr ++ (if sgAttrs ≠ "" then [sgAttrs] else [])
    let part2 := part1 ++
      ["label=\"" ++ ((nodeDataOf g root).label.getD "") ++ "\"; style=dashed;"]
    let step := fun (acc : Except String (List String × List String))
        (child : String) =>
      match acc with
      | .error e => .error e
      | .ok (parts, vis) =>
        if child ∈ vis then .ok (parts, vis)
        else if (nodeDataOf g child).subgraph then
          match renderSub g fuel child vis with
          | .error e => .error e
          | .ok (sub, vis1) => .ok (parts ++ [sub], visitAdd vis1 child)
        else
          let parts1 :=
            if shouldInclude g child then parts ++ [renderNode g child] else parts
          .ok (parts1, visitAdd vis child)
    match (succsOf g root).foldl step (.ok (part2, visited)) with
    | .error e => .error e
    | .ok (parts, vis) => .ok (String.intercalate "\n" (parts ++ ["\x7d"]), vis)

/-- The cluster-emission loop of `render_dot`: walk the topological order of
the subgraph relation, mark each node visited, and render a cluster for each
node flagged as a subgraph root. -/
def clusterLoop (g : Graph) (topo : List String) :
    Except String (List String × List String) :=
  topo.foldl
    (fun acc n =>
      match acc with
      | .error e => .error e
      | .ok (parts, vis) =>
        if n ∈ vis then .ok (parts, vis)
        else
          let vis1 := visitAdd vis n
          if (nodeDataOf g n).subgraph then
            match renderSub g (g.gNodes.length + 1) n vis1 with
            | .error e => .error e
            | .ok (sub, vis2) => .ok (parts ++ [sub], vis2)
          else .ok (parts, vis1))
    (.ok ([], []))

/-- `self.g.edges()`: iterate the adjacency dict, i.e. for each node in node
order, its outgoing edges in insertion order. -/
def edgesIter (g : Graph) : List (String × String × EdgeData) :=
  g.gNodes.flatMap (fun p => g.gEdges.filter (fun e => decide (e.1 = p.1)))

/-- The edge-emission loop of `render_dot`. -/
def edgeLines (g : Graph) : List String :=
  (edgesIter g).filterMap (fun e =>
    if e.2.2.is_subgraph_relation then none
    else
      let attrs := ["id=\"" ++ e.1 ++ "/" ++ e.2.1 ++ "\""] ++ g.edge_attrs e.1 e.2.1
      let attrs1 := attrs ++
        (match truthy e.2.2.comment with
         | some c => ["tooltip=" ++ jsonDumps c]
         | none => [])
      let attrs2 := attrs1 ++
        (match truthy e.2.2.label with
         | some l => ["label=" ++ jsonDumps l]
         | none => [])
      some ("\"" ++ e.1 ++ "\" -> \"" ++ e.2.1 ++ "\" [" ++
            String.intercalate "; " attrs2 ++ "]"))

/-- The trailing node-emission loop of `render_dot`. -/
def nodeLines (g : Graph) (visited : List String) : List String :=
  g.gNodes.filterMap (fun p =>
    if p.1 ∈ visited then none
    else if shouldInclude g p.1 then some (renderNode g p.1) else none)

/-- Document emission over an already style-resolved graph: header and
top-level graph attributes, clusters in topological order, non-subgraph
edges, remaining nodes, closing brace. -/
def emitAll (g : Graph) (subE : List (String × String)) : Except String String :=
  let head := ["digraph G \x7b"] ++
    (if g.graph_attrs.isEmpty then []
     else [String.intercalate "; " g.graph_attrs ++ ";"])
  match kahnSort subE (subRelNodes subE).length (subRelNodes subE) with
  | none => .error "NetworkXUnfeasible: graph contains a cycle"
  | some topo =>
    match clusterLoop g topo with
    | .error e => .error e
    | .ok (clusters, visited) =>
      .ok (String.intercalate "\n"
        (head ++ clusters ++ edgeLines g ++ nodeLines g visited ++ ["\x7d"]))

/-- The embedding of `Graph.render_dot`: collect the subgraph relation, check
it with `is_forest` (raising `ValueError` otherwise), run the style-spec
loops (which mutate `node_attrs` on every call), then emit the document.
Returns the document text together with the post-render graph state. -/
def renderDot (g : Graph) : Except String (String × Graph) :=
  let subE := subRelEdges g
  if subE ≠ [] ∧ nxIsForest subE = false then
    .error "ValueError: subgraph mappings must result in trees"
  else
    match stylePass g with
    | .error e => .error e
    | .ok g1 =>
      match emitAll g1 subE with
      | .error e => .error e
      | .ok t => .ok (t, g1)

/-! ## Characterizations and concrete instances used by the theorems -/

/-- Iterated prepend: `prependN k pre s` is `s` with `pre` prepended `k`
times. -/
def prependN : Nat → String → String → String
  | 0, _, s => s
  | n + 1, pre, s => pre ++ prependN n pre s

/-- The graph with `pre` prepended once to the attribute text of every node
in `targets` (the spec-side description of one ancestor/descendant style
spec). -/
def styled (g : Graph) (targets : List String) (pre : String) : Graph :=
  let na := fun m => if m ∈ targets then pre ++ g.node_attrs m else g.node_attrs m
  { g with node_attrs := na }

/-- The graph in which every node receives `pre` once per shortest path it
lies on (the spec-side description of one path style spec). -/
def styledByPathCount (g : Graph) (paths : List (List String)) (pre : String) :
    Graph :=
  let na := fun m => prependN (paths.countP (fun p => decide (m ∈ p))) pre (g.node_attrs m)
  { g with node_attrs := na }

/-- A graph in which node `c` has two declared subgraph parents, built by
applying the two statements scanned from `..subgraph: p: c` and
`..subgraph: q: c`. -/
def c1Graph : Graph :=
  (includeStatement
    (includeStatement {} (.node "p" .subgraph "c" none none)).1
    (.node "q" .subgraph "c" none none)).1

/-- A graph whose subgraph relation contains a genuine two-cycle, built from
`..subgraph: p: c` and `..subgraph: c: p`. -/
def c1Cycle : Graph :=
  (includeStatement
    (includeStatement {} (.node "p" .subgraph "c" none none)).1
    (.node "c" .subgraph "p" none none)).1

/-- A fully populated graph with one edge and one descendant style spec. -/
def c2Graph : Graph :=
  { gNodes := [("a", {}), ("b", {})], gEdges := [("a", "b", {})],
    descendant_styles := ["a : green"] }

/-- The graph state after rendering `c2Graph` once. -/
def c2Second : Graph :=
  match renderDot c2Graph with
  | .ok p => p.2
  | .error _ => c2Graph

/-- The graph state after rendering `c2Graph` twice. -/
def c2Third : Graph :=
  match renderDot c2Second with
  | .ok p => p.2
  | .error _ => c2Second

/-- A graph holding the edge `(a, b)` with a label and a comment, built from
one edge statement. -/
def c4Graph : Graph :=
  (includeStatement {} (.edge "a" "b" none (some "L1") (some "first") none)).1

/-- The state after a second, metadata-free edge statement for the same
pair. -/
def c4Cex : Graph :=
  (includeStatement c4Graph (.edge "a" "b" none none none none)).1

/-- A graph with accumulated edge attributes on `(a, b)`. -/
def c6Graph : Graph :=
  (includeStatement {} (.edge "a" "b" none none none (some "x=1"))).1

/-- A two-node, one-edge graph. -/
def c7Graph : Graph :=
  { gNodes := [("a", {}), ("b", {})], gEdges := [("a", "b", {})] }

/-- A diamond: two distinct shortest paths from `a` to `d`. -/
def c8Diamond : Graph :=
  { gNodes := [("a", {}), ("b", {}), ("c", {}), ("d", {})],
    gEdges := [("a", "b", {}), ("a", "c", {}), ("b", "d", {}), ("c", "d", {})] }

/-- The error message of a failed computation, if any. -/
def exceptErr {A : Type} : Except String A → Option String
  | .error m => some m
  | .ok _ => none

/-- A graph with a pre-existing `node_attrs` entry for node `n`. -/
def c5Prior : Graph :=
  (includeStatement {} (.node "n" .attr "old" none none)).1

/-- An edge-shaped statement carrying a directive other than `attr` (the
`ConfigurationError` condition of the spec). -/
def edgeWithNonAttrDirective : Statement → Prop
  | .edge _ _ (some d) _ _ _ => d ≠ Directive.attr
  | _ => False

/-- A subgraph statement none of whose comma-split children is nonempty,
aimed at a node that is not yet in the graph (the unhandled `KeyError`
condition of `_handle_subgraph`). -/
def emptySubgraphOnNewNode (g : Graph) : Statement → Prop
  | .node nd .subgraph dat _ _ =>
    (∀ c ∈ splitCommaWs dat, c = "") ∧ nd ∉ nodeKeys g
  | _ => False

/-! ## Helper lemmas -/

theorem prependN_shift (n : Nat) (pre s : String) :
    prependN n pre (pre ++ s) = prependN (n + 1) pre s := by
  induction n with
  | zero => rfl
  | succ k ih => simp only [prependN, ih]

theorem prependN_add (a b : Nat) (pre s : String) :
    prependN a pre (prependN b pre s) = prependN (a + b) pre s := by
  induction a with
  | zero => simp [prependN]
  | succ k ih =>
    simp only [prependN, ih]
    have : k + 1 + b = (k + b) + 1 := by omega
    rw [this]; rfl

theorem foldl_prependStep_count (pre : String) (l : List String) :
    ∀ (na : String → String) (m : String),
      (l.foldl (prependStep pre) na) m
        = prependN (l.count m) pre (na m) := by
  induction l with
  | nil => intro na m; rfl
  | cons x xs ih =>
    intro na m
    have hstep : (prependStep pre na x) m
        = if m = x then pre ++ na m else na m := by
      by_cases h : m = x
      · subst h; simp [prependStep, upd]
      · simp [prependStep, upd, h]
    simp only [List.foldl_cons, ih, hstep]
    by_cases h : m = x
    · subst h
      rw [List.count_cons_self, if_pos rfl, prependN_shift]
    · rw [List.count_cons_of_ne (by simpa using h), if_neg h]

theorem foldl_prependStep_nodup (pre : String) (l : List String)
    (hl : l.Nodup) (na : String → String) :
    (l.foldl (prependStep pre) na)
      = fun m => if m ∈ l then pre ++ na m else na m := by
  funext m
  rw [foldl_prependStep_count]
  by_cases h : m ∈ l
  · rw [if_pos h]
    have h1 : l.count m = 1 := by
      have hle := List.nodup_iff_count_le_one.mp hl m
      have hpos : 0 < l.count m := List.count_pos_iff.mpr h
      omega
    rw [h1]; rfl
  · rw [if_neg h, List.count_eq_zero_of_not_mem h]; rfl

theorem foldl_paths_count (pre : String) (ps : List (List String)) :
    ∀ (na : String → String) (m : String),
      (ps.foldl (fun na p => p.foldl (prependStep pre) na) na) m
        = prependN ((ps.map (fun p => p.count m)).sum) pre (na m) := by
  induction ps with
  | nil => intro na m; rfl
  | cons p ps ih =>
    intro na m
    simp only [List.foldl_cons, ih, List.map_cons, List.sum_cons,
      foldl_prependStep_count, prependN_add, Nat.add_comm]

theorem sum_counts_eq_countP (m : String) (ps : List (List String))
    (h : ∀ p ∈ ps, p.Nodup) :
    (ps.map (fun p => p.count m)).sum
      = ps.countP (fun p => decide (m ∈ p)) := by
  induction ps with
  | nil => rfl
  | cons p ps ih =>
    have hp : p.Nodup := h p (List.mem_cons_self p ps)
    have hcount : p.count m = if m ∈ p then 1 else 0 := by
      by_cases hm : m ∈ p
      · have hle := List.nodup_iff_count_le_one.mp hp m
        have hpos : 0 < p.count m := List.count_pos_iff.mpr hm
        rw [if_pos hm]; omega
      · rw [if_neg hm, List.count_eq_zero_of_not_mem hm]
    rw [List.map_cons, List.sum_cons, List.countP_cons,
      ih (fun q hq => h q (List.mem_cons_of_mem _ hq)), hcount]
    by_cases hm : m ∈ p
    · rw [if_pos hm]; simp [hm, Nat.add_comm]
    · rw [if_neg hm]; simp [hm]

theorem nodup_flatMap_disjoint {α β : Type} (l : List α) (f : α → List β)
    (hl : l.Nodup) (hf : ∀ a ∈ l, (f a).Nodup)
    (hdisj : ∀ a ∈ l, ∀ a2 ∈ l, a ≠ a2 → ∀ b1 ∈ f a, b1 ∉ f a2) :
    (l.flatMap f).Nodup := by
  induction l with
  | nil => simp
  | cons x xs ih =>
    rw [List.flatMap_cons]
    have hxs : xs.Nodup := (List.nodup_cons.mp hl).2
    have hxnot : x ∉ xs := (List.nodup_cons.mp hl).1
    apply List.Nodup.append
    · exact hf x (List.mem_cons_self x xs)
    · exact ih hxs (fun a ha => hf a (List.mem_cons_of_mem _ ha))
        (fun a ha a2 ha2 hne => hdisj a (List.mem_cons_of_mem _ ha)
          a2 (List.mem_cons_of_mem _ ha2) hne)
    · intro b hb1 hb2
      rw [List.mem_flatMap] at hb2
      obtain ⟨y, hy, hby⟩ := hb2
      have hxy : x ≠ y := by
        intro h; subst h; exact hxnot hy
      exact hdisj x (List.mem_cons_self x xs) y (List.mem_cons_of_mem _ hy)
        hxy b hb1 hby

theorem simplePathsAux_head (g : Graph) (b : String) :
    ∀ (fuel : Nat) (a : String) (visited : List String)
      (p : List String), p ∈ simplePathsAux g b fuel a visited →
      ∃ q, p = a :: q := by
  intro fuel
  induction fuel with
  | zero => intro a visited p hp; simp [simplePathsAux] at hp
  | succ k _ =>
    intro a visited p hp
    unfold simplePathsAux at hp
    by_cases hab : a = b
    · rw [if_pos hab] at hp
      simp at hp
      exact ⟨[], hp⟩
    · rw [if_neg hab] at hp
      simp only [List.mem_flatMap, List.mem_map] at hp
      obtain ⟨x, _, q, _, rfl⟩ := hp
      exact ⟨q, rfl⟩

theorem simplePathsAux_nodup_mem (g : Graph) (b : String) :
    ∀ (fuel : Nat) (a : String) (visited : List String), a ∉ visited →
      ∀ p ∈ simplePathsAux g b fuel a visited,
        p.Nodup ∧ ∀ y ∈ p, y ∉ visited := by
  intro fuel
  induction fuel with
  | zero => intro a visited _ p hp; simp [simplePathsAux] at hp
  | succ k ih =>
    intro a visited ha p hp
    unfold simplePathsAux at hp
    by_cases hab : a = b
    · rw [if_pos hab] at hp
      simp at hp
      subst hp
      refine ⟨List.nodup_singleton a, ?_⟩
      intro y hy
      simp at hy
      subst hy
      exact ha
    · rw [if_neg hab] at hp
      simp only [List.mem_flatMap, List.mem_map, List.mem_filter] at hp
      obtain ⟨x, ⟨hxmem, hxnot⟩, q, hq, rfl⟩ := hp
      have hx2 : x ∉ a :: visited := by simpa using hxnot
      obtain ⟨hqnd, hqvis⟩ := ih x (a :: visited) hx2 q hq
      constructor
      · refine List.nodup_cons.mpr ⟨?_, hqnd⟩
        intro hain
        exact (hqvis a hain) (List.mem_cons_self a visited)
      · intro y hy
        rcases List.mem_cons.mp hy with h1 | h2
        · subst h1; exact ha
        · intro hyv; exact (hqvis y h2) (List.mem_cons_of_mem _ hyv)

theorem simplePathsAux_nodup_list (g : Graph) (b : String) :
    ∀ (fuel : Nat) (a : String) (visited : List String),
      (simplePathsAux g b fuel a visited).Nodup := by
  intro fuel
  induction fuel with
  | zero => intro a visited; simp [simplePathsAux]
  | succ k ih =>
    intro a visited
    unfold simplePathsAux
    by_cases hab : a = b
    · rw [if_pos hab]; simp
    · rw [if_neg hab]
      apply nodup_flatMap_disjoint
      · exact List.Nodup.filter _ (List.nodup_dedup _)
      · intro x _
        refine List.Nodup.map ?_ (ih x (a :: visited))
        intro p1 p2 h
        injection h
      · intro x _ y _ hxy p hp1 hp2
        simp only [List.mem_map] at hp1 hp2
        obtain ⟨q1, hq1, hpe1⟩ := hp1
        obtain ⟨q2, hq2, hpe2⟩ := hp2
        obtain ⟨r1, hr1⟩ := simplePathsAux_head g b k x (a :: visited) q1 hq1
        obtain ⟨r2, hr2⟩ := simplePathsAux_head g b k y (a :: visited) q2 hq2
        have : q1 = q2 := by
          have := hpe1.trans hpe2.symm
          injection this
        rw [hr1, hr2] at this
        injection this with h1 _
        exact hxy h1

theorem ancestorsOf_nodup (g : Graph) (n : String) : (ancestorsOf g n).Nodup :=
  List.Nodup.filter _ (List.nodup_dedup _)

theorem descendantsOf_nodup (g : Graph) (n : String) :
    (descendantsOf g n).Nodup :=
  List.Nodup.filter _ (List.nodup_dedup _)

theorem not_mem_ancestorsOf_self (g : Graph) (n : String) :
    n ∉ ancestorsOf g n := by
  intro h
  rw [ancestorsOf, List.mem_filter] at h
  simp at h

theorem not_mem_descendantsOf_self (g : Graph) (n : String) :
    n ∉ descendantsOf g n := by
  intro h
  rw [descendantsOf, List.mem_filter] at h
  simp at h

theorem mem_allShortestPaths_nodup (g : Graph) (a b : String) :
    ∀ p ∈ allShortestPaths g a b, p.Nodup := by
  intro p hp
  have hp2 : p ∈ allSimplePaths g a b := List.mem_of_mem_filter hp
  exact (simplePathsAux_nodup_mem g b (reachFuel g) a [] (List.not_mem_nil a)
    p hp2).1

theorem allShortestPaths_nodup (g : Graph) (a b : String) :
    (allShortestPaths g a b).Nodup :=
  List.Nodup.filter _ (simplePathsAux_nodup_list g b _ a [])

theorem resolveStyle_passthrough (t : String)
    (ht : t ∉ NODE_STYLES.map Prod.fst) : resolveStyle t = t := by
  unfold resolveStyle
  have hnone : NODE_STYLES.find? (fun p => p.1 == t) = none := by
    apply List.find?_eq_none.mpr
    intro x hx hbeq
    exact ht (List.mem_map.mpr ⟨x, hx, beq_iff_eq.mp hbeq⟩)
  rw [hnone]

/-- C7: an ancestor (resp. descendant) style spec resolves its style text
through the fixed preset table (`highlight` and `pink` map to filled pink,
`green` to filled green, anything else passes through verbatim) and prepends
the resolved text followed by `;` to the existing `node_attrs` entry of every
node in the target's ancestor (resp. descendant) reachability set, which
excludes the target itself. -/
theorem C7_style_spec_prepends_over_reachability (g : Graph) (spec n a0 : String)
    (hp : parseNodeSpec spec = some (n, a0)) (hn : n ∈ nodeKeys g) :
    applyAncestorSpec g spec
        = .ok (styled g (ancestorsOf g n) (resolveStyle a0 ++ ";"))
    ∧ applyDescendantSpec g spec
        = .ok (styled g (descendantsOf g n) (resolveStyle a0 ++ ";"))
    ∧ n ∉ ancestorsOf g n ∧ n ∉ descendantsOf g n
    ∧ resolveStyle "highlight" = "style=\"filled\"; fillcolor=\"pink\""
    ∧ resolveStyle "pink" = "style=\"filled\"; fillcolor=\"pink\""
    ∧ resolveStyle "green" = "style=\"filled\"; fillcolor=\"green\""
    ∧ (∀ t : String, t ∉ NODE_STYLES.map Prod.fst → resolveStyle t = t) := by
  refine ⟨?_, ?_, not_mem_ancestorsOf_self g n, not_mem_descendantsOf_self g n,
    rfl, rfl, rfl, resolveStyle_passthrough⟩
  · unfold applyAncestorSpec
    rw [hp]
    simp only [if_pos hn]
    have h := foldl_prependStep_nodup (resolveStyle a0 ++ ";")
      (ancestorsOf g n) (ancestorsOf_nodup g n) g.node_attrs
    exact congrArg (fun f => Except.ok { g with node_attrs := f }) h
  · unfold applyDescendantSpec
    rw [hp]
    simp only [if_pos hn]
    have h := foldl_prependStep_nodup (resolveStyle a0 ++ ";")
      (descendantsOf g n) (descendantsOf_nodup g n) g.node_attrs
    exact congrArg (fun f => Except.ok { g with node_attrs := f }) h

/-- C7 witness: the theorem applied to a concrete graph and spec, plus a
verbatim pass-through example. -/
theorem C7_style_spec_witness :
    applyAncestorSpec c7Graph "b : highlight"
        = .ok (styled c7Graph (ancestorsOf c7Graph "b")
            (resolveStyle "highlight" ++ ";"))
    ∧ resolveStyle "shape=box" = "shape=box" := by
  have h := C7_style_spec_prepends_over_reachability c7Graph "b : highlight"
    "b" "highlight" (by decide) (by decide)
  exact ⟨h.1, h.2.2.2.2.2.2.2 "shape=box" (by decide)⟩

/-- C8: a path style spec prepends the resolved style text followed by `;` to
the `node_attrs` entry of every node on every minimum-edge-count path between
the endpoints, once per shortest path the node lies on (no deduplication);
the shortest paths are simple and pairwise distinct, so the count is the
number of distinct shortest paths through the node. -/
theorem C8_path_spec_prepends_per_path (g : Graph) (spec a b a0 : String)
    (hp : parsePathSpec spec = some (a, b, a0)) (ha : a ∈ nodeKeys g)
    (hne : allShortestPaths g a b ≠ []) :
    applyPathSpec g spec
        = .ok (styledByPathCount g (allShortestPaths g a b)
            (resolveStyle a0 ++ ";"))
    ∧ (∀ p ∈ allShortestPaths g a b, p.Nodup)
    ∧ (allShortestPaths g a b).Nodup := by
  refine ⟨?_, mem_allShortestPaths_nodup g a b, allShortestPaths_nodup g a b⟩
  unfold applyPathSpec
  rw [hp]
  simp only [if_pos ha]
  obtain ⟨p0, ps, hSP⟩ := List.exists_cons_of_ne_nil hne
  rw [hSP]
  have hfold : (p0 :: ps).foldl
      (fun na p => p.foldl (prependStep (resolveStyle a0 ++ ";")) na)
      g.node_attrs
      = (styledByPathCount g (p0 :: ps) (resolveStyle a0 ++ ";")).node_attrs := by
    funext m
    rw [foldl_paths_count]
    have hnd : ∀ p ∈ p0 :: ps, p.Nodup := by
      rw [← hSP]; exact mem_allShortestPaths_nodup g a b
    rw [sum_counts_eq_countP m _ hnd]
    rfl
  exact congrArg (fun f => Except.ok { g with node_attrs := f }) hfold

/-- C8 witness: on a diamond graph both endpoints lie on two distinct
shortest paths and the two middles on one each. -/
theorem C8_path_spec_witness :
    applyPathSpec c8Diamond "a to d : pink"
        = .ok (styledByPathCount c8Diamond (allShortestPaths c8Diamond "a" "d")
            (resolveStyle "pink" ++ ";"))
    ∧ (allShortestPaths c8Diamond "a" "d").countP
        (fun p => decide ("a" ∈ p)) = 2
    ∧ (allShortestPaths c8Diamond "a" "d").countP
        (fun p => decide ("b" ∈ p)) = 1 := by
  have h := C8_path_spec_prepends_per_path c8Diamond "a to d : pink"
    "a" "d" "pink" (by decide) (by decide) (by decide)
  exact ⟨h.1, by decide, by decide⟩

theorem stylePass_no_specs (g : Graph) (h1 : g.ascendant_styles = [])
    (h2 : g.descendant_styles = []) (h3 : g.path_styles = []) :
    stylePass g = .ok g := by
  unfold stylePass
  rw [h1]
  simp only [foldExcept]
  rw [h2]
  simp only [foldExcept]
  rw [h3]
  rfl

/-- C2 (amended): when the three style-spec lists are empty — which is the
case for every graph the build pass produces — rendering is read-only: the
returned graph state equals the input graph, and rendering again yields the
identical output text. -/
theorem C2_render_readonly_without_specs (g : Graph)
    (h1 : g.ascendant_styles = []) (h2 : g.descendant_styles = [])
    (h3 : g.path_styles = []) (t : String) (g2 : Graph)
    (hr : renderDot g = .ok (t, g2)) :
    g2 = g ∧ renderDot g2 = .ok (t, g2) := by
  have hstyle := stylePass_no_specs g h1 h2 h3
  unfold renderDot at hr
  rw [hstyle] at hr
  by_cases hc : subRelEdges g ≠ [] ∧ nxIsForest (subRelEdges g) = false
  · rw [if_pos hc] at hr
    exact absurd hr (by simp)
  · rw [if_neg hc] at hr
    cases he : emitAll g (subRelEdges g) with
    | error e =>
      simp only [he] at hr
      exact absurd hr (by simp)
    | ok t1 =>
      simp only [he, Except.ok.injEq, Prod.mk.injEq] at hr
      obtain ⟨htt, hgg⟩ := hr
      subst htt
      subst hgg
      refine ⟨rfl, ?_⟩
      unfold renderDot
      rw [hstyle, if_neg hc]
      dsimp only
      rw [he]

/-- C2 witness: the empty graph renders to the bare digraph shell and is
returned unchanged, so a second render is identical. -/
theorem C2_render_readonly_witness :
    (({} : Graph) : Graph) = ({} : Graph) ∧
      renderDot ({} : Graph) = .ok ("digraph G \x7b\n\x7d", ({} : Graph)) := by
  exact C2_render_readonly_without_specs ({} : Graph) rfl rfl rfl
    "digraph G \x7b\n\x7d" ({} : Graph) (by rfl)

/-- C2 counterexample: with a nonempty descendant style list the style
mutation pass reruns on every render, so the second render's output differs
from the first and `node_attrs` keeps changing. -/
theorem C2_counterexample_second_render_differs :
    (renderDot c2Graph).toOption.map Prod.fst
      ≠ (renderDot c2Second).toOption.map Prod.fst
    ∧ c2Second.node_attrs "b" ≠ c2Graph.node_attrs "b"
    ∧ c2Third.node_attrs "b" ≠ c2Second.node_attrs "b" := by
  refine ⟨by decide, by decide, by decide⟩

/-- C1: evaluating the code at the failing input.  In `c1Graph` the node `c`
has two declared subgraph parents (in-degree 2 among subgraph-relation
edges), yet the `is_forest` check passes (it only counts edges per weakly
connected component) and `render_dot` completes without raising; a genuine
subgraph cycle, by contrast, does raise the structure `ValueError`, so the
check exists but does not reject multiple parents. -/
theorem C1_two_parents_render_succeeds :
    ((subRelEdges c1Graph).filter (fun e => decide (e.2 = "c"))).length = 2
    ∧ nxIsForest (subRelEdges c1Graph) = true
    ∧ (renderDot c1Graph).toOption.isSome = true
    ∧ exceptErr (renderDot c1Cycle)
        = some "ValueError: subgraph mappings must result in trees" := by
  refine ⟨by decide, by decide, by decide, by decide⟩

/-- C9: the scanner reproduces the concrete examples of the spec, with and
without extra whitespace around the arrow. -/
theorem C9_scanner_concrete_examples :
    search_for_statements "edge1 --> edge2"
        = [.edge "edge1" "edge2" none none none none]
    ∧ search_for_statements "edge1 --> edge2 :: comment goes here"
        = [.edge "edge1" "edge2" none none (some "comment goes here") none]
    ∧ search_for_statements "..attr: nodeName: attrs"
        = [.node "nodeName" .attr "attrs" none none]
    ∧ search_for_statements "edge1  -->  edge2"
        = [.edge "edge1" "edge2" none none none none]
    ∧ search_for_statements "edge1  -->  edge2 :: comment goes here"
        = [.edge "edge1" "edge2" none none (some "comment goes here") none] := by
  refine ⟨by decide, by decide, by decide, by decide, by decide⟩

theorem findEdgeL_updEdges (a b : String) (kl kc : Option String) (ks : Bool) :
    ∀ es : List (String × String × EdgeData),
      findEdgeL (updEdges es a b kl kc ks) a b
        = some (mergeEdgeData ((findEdgeL es a b).getD {}) kl kc ks) := by
  intro es
  induction es with
  | nil =>
    simp [updEdges, findEdgeL, List.find?]
  | cons e es ih =>
    by_cases h : e.1 = a ∧ e.2.1 = b
    · rw [updEdges, if_pos h]
      rw [findEdgeL, findEdgeL]
      rw [List.find?_cons_of_pos _ (by simp), List.find?_cons_of_pos _ (by simp [h.1, h.2])]
      rfl
    · rw [updEdges, if_neg h]
      rw [findEdgeL, List.find?_cons_of_neg _ (by simpa using h)]
      rw [findEdgeL, List.find?_cons_of_neg _ (by simpa using h)]
      exact ih

theorem nodeKeys_ensureNode (g : Graph) (n m : String) :
    m ∈ nodeKeys (ensureNode g n) ↔ m = n ∨ m ∈ nodeKeys g := by
  unfold ensureNode
  by_cases h : n ∈ nodeKeys g
  · rw [if_pos h]
    constructor
    · exact fun hm => Or.inr hm
    · rintro (rfl | hm)
      · exact h
      · exact hm
  · rw [if_neg h]
    simp only [nodeKeys, List.map_append, List.mem_append]
    simp [Or.comm]

theorem nodeKeys_addEdge (g : Graph) (a b m : String) (kl kc : Option String)
    (ks : Bool) :
    m ∈ nodeKeys (addEdge g a b kl kc ks) ↔ m = a ∨ m = b ∨ m ∈ nodeKeys g := by
  show m ∈ nodeKeys (ensureNode (ensureNode g a) b) ↔ _
  rw [nodeKeys_ensureNode, nodeKeys_ensureNode]
  tauto

theorem foldl_subgraphStep_all_empty (nd : String) :
    ∀ (cs : List String) (g : Graph), (∀ c ∈ cs, c = "") →
      cs.foldl (subgraphChildStep nd) g = g := by
  intro cs
  induction cs with
  | nil => intro g _; rfl
  | cons c cs ih =>
    intro g h
    have hc : c = "" := h c (List.mem_cons_self c cs)
    rw [List.foldl_cons]
    have hstep : subgraphChildStep nd g c = g := by
      unfold subgraphChildStep
      rw [if_neg (by simp [hc])]
    rw [hstep]
    exact ih g (fun x hx => h x (List.mem_cons_of_mem _ hx))

theorem mem_nodeKeys_foldl_subgraphStep (nd : String) :
    ∀ (cs : List String) (g : Graph) (m : String), m ∈ nodeKeys g →
      m ∈ nodeKeys (cs.foldl (subgraphChildStep nd) g) := by
  intro cs
  induction cs with
  | nil => intro g m hm; exact hm
  | cons c cs ih =>
    intro g m hm
    rw [List.foldl_cons]
    apply ih
    unfold subgraphChildStep
    by_cases hc : c ≠ ""
    · rw [if_pos hc]
      rw [nodeKeys_addEdge]
      tauto
    · rw [if_neg hc]
      exact hm

theorem nd_mem_foldl_subgraphStep_of_nonempty (nd : String) :
    ∀ (cs : List String) (g : Graph), (∃ c ∈ cs, c ≠ "") →
      nd ∈ nodeKeys (cs.foldl (subgraphChildStep nd) g) := by
  intro cs
  induction cs with
  | nil => intro g h; simp at h
  | cons c cs ih =>
    intro g h
    rw [List.foldl_cons]
    by_cases hc : c ≠ ""
    · apply mem_nodeKeys_foldl_subgraphStep
      unfold subgraphChildStep
      rw [if_pos hc, nodeKeys_addEdge]
      tauto
    · rcases h with ⟨x, hx, hxe⟩
      rcases List.mem_cons.mp hx with h1 | h2
      · subst h1; exact absurd hxe hc
      · exact ih _ ⟨x, h2, hxe⟩

/-- C3 (amended): applying a statement fails exactly when the statement is
edge-shaped with a directive other than `attr` (a `ValueError`), or it is a
subgraph statement whose data yields no nonempty child while its target node
is not yet in the graph (an unhandled `KeyError`); every other statement
never fails. -/
theorem C3_apply_error_characterization (g : Graph) (s : Statement) :
    ((includeStatement g s).2).isSome = true
      ↔ edgeWithNonAttrDirective s ∨ emptySubgraphOnNewNode g s := by
  cases s with
  | edge a b dir lbl cmt dat =>
    cases dir with
    | none =>
      simp [includeStatement, edgeWithNonAttrDirective, emptySubgraphOnNewNode,
        Option.getD]
    | some d =>
      by_cases hd : d = Directive.attr
      · subst hd
        simp [includeStatement, edgeWithNonAttrDirective,
          emptySubgraphOnNewNode, Option.getD]
      · simp [includeStatement, edgeWithNonAttrDirective,
          emptySubgraphOnNewNode, Option.getD, hd]
  | node nd dir dat lbl cmt =>
    cases dir with
    | subgraph =>
      simp only [includeStatement, edgeWithNonAttrDirective,
        emptySubgraphOnNewNode, false_or]
      by_cases hin : nd ∈ nodeKeys ((splitCommaWs dat).foldl (subgraphChildStep nd) g)
      · rw [if_pos hin]
        simp only [Option.isSome_none, Bool.false_eq_true, false_iff]
        intro hcontra
        obtain ⟨hempty, hnot⟩ := hcontra
        rw [foldl_subgraphStep_all_empty nd _ g hempty] at hin
        exact hnot hin
      · rw [if_neg hin]
        simp only [Option.isSome_some, true_iff]
        constructor
        · intro c hc
          by_contra hne
          exact hin (nd_mem_foldl_subgraphStep_of_nonempty nd _ g ⟨c, hc, hne⟩)
        · intro hmem
          exact hin (mem_nodeKeys_foldl_subgraphStep nd _ g nd hmem)
    | attr =>
      by_cases hg : nd = "graph"
      · subst hg
        simp [includeStatement, edgeWithNonAttrDirective, emptySubgraphOnNewNode]
      · simp [includeStatement, edgeWithNonAttrDirective,
          emptySubgraphOnNewNode, hg]
    | allPaths =>
      simp [includeStatement, edgeWithNonAttrDirective, emptySubgraphOnNewNode]
    | ancestors =>
      simp [includeStatement, edgeWithNonAttrDirective, emptySubgraphOnNewNode]
    | descendants =>
      simp [includeStatement, edgeWithNonAttrDirective, emptySubgraphOnNewNode]

/-- C3 counterexample: a node-shaped (not edge-shaped) statement on which
`apply` nevertheless fails: `..subgraph: grouping:` with empty data on a
fresh graph hits the `KeyError` in `_handle_subgraph`. -/
theorem C3_counterexample_empty_subgraph_fails :
    (includeStatement ({} : Graph)
        (.node "grouping" .subgraph "" none none)).2
      = some "KeyError: grouping" := by
  decide

/-- C4 (amended): a later edge statement for an existing pair updates the
edge's metadata key by key: a label or comment present (and nonempty) on the
later statement overwrites that key, while a key absent from the later
statement keeps the earlier value (`add_edge` merges attribute dicts, it does
not replace them). -/
theorem C4_edge_metadata_merges (g : Graph) (a b : String)
    (dir : Option Directive) (lbl cmt dat : Option String) (d0 : EdgeData)
    (hdir : dir = none ∨ dir = some .attr) (hex : findEdge g a b = some d0) :
    (includeStatement g (.edge a b dir lbl cmt dat)).2 = none ∧
    findEdge (includeStatement g (.edge a b dir lbl cmt dat)).1 a b
      = some { label := orO (truthy lbl) d0.label,
               comment := orO (truthy cmt) d0.comment,
               is_subgraph_relation := d0.is_subgraph_relation } := by
  have hgetd : (dir.getD Directive.attr) = Directive.attr := by
    rcases hdir with rfl | rfl <;> rfl
  have hmain : ∀ g1 : Graph, g1.gEdges = g.gEdges →
      findEdge (addEdge g1 a b (truthy lbl) (truthy cmt) false) a b
        = some { label := orO (truthy lbl) d0.label,
                 comment := orO (truthy cmt) d0.comment,
                 is_subgraph_relation := d0.is_subgraph_relation } := by
    intro g1 hg1
    show findEdgeL (updEdges (ensureNode (ensureNode g1 a) b).gEdges a b _ _ _) a b = _
    have hge : (ensureNode (ensureNode g1 a) b).gEdges = g.gEdges := by
      unfold ensureNode
      split <;> split <;> simpa using hg1
    rw [hge, findEdgeL_updEdges]
    rw [findEdge] at hex
    rw [hex]
    simp [mergeEdgeData]
  constructor
  · simp only [includeStatement, hgetd]
    rw [if_neg (by simp)]
  · simp only [includeStatement, hgetd]
    rw [if_neg (by simp)]
    refine hmain _ ?_
    cases dat with
    | none => rfl
    | some d =>
      by_cases hd : d = "" <;> simp [hd]

/-- C4 counterexample: after a second edge statement for `(a, b)` carrying no
label and no comment, the earlier comment survives - the metadata does not
consist exactly of the later statement's fields. -/
theorem C4_counterexample_comment_survives :
    findEdge c4Cex "a" "b"
        ≠ some { label := none, comment := none, is_subgraph_relation := false }
    ∧ findEdge c4Cex "a" "b"
        = some { label := some "L1", comment := some "first",
                 is_subgraph_relation := false } := by
  refine ⟨by decide, by decide⟩

/-- C4 witness: the merge theorem applied to a concrete pair - the later
label wins, the earlier comment survives. -/
theorem C4_merge_witness :
    (includeStatement c4Graph (.edge "a" "b" none (some "L2") none none)).2 = none
    ∧ findEdge (includeStatement c4Graph
          (.edge "a" "b" none (some "L2") none none)).1 "a" "b"
        = some { label := some "L2", comment := some "first",
                 is_subgraph_relation := false } := by
  have h := C4_edge_metadata_merges c4Graph "a" "b" none (some "L2") none none
    { label := some "L1", comment := some "first", is_subgraph_relation := false }
    (Or.inl rfl) (by decide)
  exact ⟨h.1, h.2.trans (by decide)⟩

/-- C5 (amended): an `attr` statement on a node other than `graph` replaces
`node_attrs[node]` with the statement's data (whatever was there before),
and when the statement carries a nonempty comment the stored value is
`tooltip=` followed by the JSON-encoded comment concatenated immediately
before the data; an absent or empty comment yields the bare data. -/
theorem C5_attr_sets_node_attrs (g : Graph) (nd dat : String)
    (lbl cmt : Option String) (hnd : nd ≠ "graph") :
    (includeStatement g (.node nd .attr dat lbl cmt)).2 = none
    ∧ (cmt = none →
        ((includeStatement g (.node nd .attr dat lbl cmt)).1).node_attrs nd = dat)
    ∧ (cmt = some "" →
        ((includeStatement g (.node nd .attr dat lbl cmt)).1).node_attrs nd = dat)
    ∧ (∀ c : String, cmt = some c → c ≠ "" →
        ((includeStatement g (.node nd .attr dat lbl cmt)).1).node_attrs nd
          = "tooltip=" ++ jsonDumps c ++ dat) := by
  refine ⟨?_, ?_, ?_, ?_⟩
  · simp [includeStatement, hnd]
  · rintro rfl
    simp [includeStatement, hnd, truthy, upd]
  · rintro rfl
    simp [includeStatement, hnd, truthy, upd]
  · rintro c rfl hc
    simp [includeStatement, hnd, truthy, hc, upd]

/-- C5 counterexample: a statement that carries a comment - the empty one -
is stored without the tooltip prefix, because the code tests the comment for
Python truthiness, not presence. -/
theorem C5_counterexample_empty_comment_ignored :
    ((includeStatement ({} : Graph)
        (.node "n" .attr "color=red" none (some ""))).1).node_attrs "n"
      = "color=red"
    ∧ "color=red" ≠ "tooltip=" ++ jsonDumps "" ++ "color=red" := by
  refine ⟨by decide, by decide⟩

/-- C5 witness: the theorem applied with a prior attribute value in place and
a nonempty comment. -/
theorem C5_attr_witness :
    ((includeStatement c5Prior (.node "n" .attr "shape=box" none
        (some "hey"))).1).node_attrs "n"
      = "tooltip=" ++ jsonDumps "hey" ++ "shape=box" := by
  exact (C5_attr_sets_node_attrs c5Prior "n" "shape=box" none (some "hey")
    (by decide)).2.2.2 "hey" rfl (by decide)

/-- C6: an `attr` statement on an edge with nonempty data appends the data -
stripped as a whole, then split on `;` - to `edge_attrs[start][end]`,
preserving all earlier fragments. -/
theorem C6_edge_attrs_accumulate (g : Graph) (a b : String)
    (dir : Option Directive) (lbl cmt : Option String) (d : String)
    (hdir : dir = none ∨ dir = some .attr) (hd : d ≠ "") :
    (includeStatement g (.edge a b dir lbl cmt (some d))).2 = none
    ∧ ((includeStatement g (.edge a b dir lbl cmt (some d))).1).edge_attrs a b
        = g.edge_attrs a b ++ splitSemi (pyStrip d) := by
  have hgetd : (dir.getD Directive.attr) = Directive.attr := by
    rcases hdir with rfl | rfl <;> rfl
  constructor
  · simp only [includeStatement, hgetd]
    rw [if_neg (by simp)]
  · simp only [includeStatement, hgetd]
    rw [if_neg (by simp), if_pos hd]
    show (addEdge _ a b _ _ false).edge_attrs a b = _
    have : ∀ g2 : Graph, (addEdge g2 a b (truthy lbl) (truthy cmt) false).edge_attrs
        = g2.edge_attrs := by
      intro g2
      show (ensureNode (ensureNode g2 a) b).edge_attrs = g2.edge_attrs
      unfold ensureNode
      split <;> split <;> rfl
    rw [this]
    simp [upd2]

/-- C6 witness: fragments accumulate across successive attr statements on
the same pair and per-fragment whitespace is kept. -/
theorem C6_edge_attrs_witness :
    ((includeStatement c6Graph
        (.edge "a" "b" (some .attr) none none (some "color=red; style=bold"))).1).edge_attrs
        "a" "b"
      = ["x=1", "color=red", " style=bold"] := by
  have h := C6_edge_attrs_accumulate c6Graph "a" "b" (some .attr) none none
    "color=red; style=bold" (Or.inr rfl) (by decide)
  exact h.2.trans (by decide)

/-- C10: for an edge-shaped statement whose directive is present and differs
from `attr`, the error is raised before any mutation - the returned state is
exactly the input graph, with the `ValueError` message. -/
theorem C10_edge_error_is_atomic (g : Graph) (a b : String)
    (dir : Option Directive) (lbl cmt dat : Option String) (d : Directive)
    (hd : dir = some d) (hne : d ≠ Directive.attr) :
    includeStatement g (.edge a b dir lbl cmt dat)
      = (g, some ("ValueError: Can only handle edges for attr statements, not ["
           ++ d.name ++ "]")) := by
  subst hd
  simp [includeStatement, Option.getD, hne]

/-- C10 witness: a `subgraph` directive on an edge leaves a nonempty graph
untouched and reports the configuration error. -/
theorem C10_atomic_witness :
    includeStatement c4Graph (.edge "x" "y" (some .subgraph) none none (some "z"))
      = (c4Graph,
         some "ValueError: Can only handle edges for attr statements, not [subgraph]") := by
  exact C10_edge_error_is_atomic c4Graph "x" "y" (some .subgraph) none none
    (some "z") .subgraph rfl (by decide)
